import Mathlib

/-!
Verification of the Lynx web server (`src/server.py`) request pipeline.

Python byte/character strings are modelled as `List Char` (the requests in
question are ASCII, so byte length and character length coincide).  Library
functions that the server imports (`urllib.parse.unquote_plus`,
`urllib.parse.parse_qs`, `mimetypes.guess_type`) are external collaborators
and are modelled as parameters of the pipeline, collected in `Ext`.
The filesystem is modelled as a structure of query functions (`FS`), and the
plugin hook registry as lists of callbacks with explicit observation logs.
-/

set_option maxRecDepth 16384

namespace Lynx

abbrev Str := List Char

/-- Python `sub in s` (substring containment) on our string model. -/
def hasSub (sub : Str) : Str → Bool
  | [] => sub.isPrefixOf []
  | c :: rest => sub.isPrefixOf (c :: rest) || hasSub sub rest

theorem hasSub_iff {sub s : Str} : hasSub sub s = true ↔ sub <:+: s := by
  induction s with
  | nil =>
    simp only [hasSub, List.isPrefixOf_iff_prefix]
    constructor
    · intro h
      rcases List.prefix_nil.mp h with rfl
      exact List.infix_rfl
    · intro h
      rcases List.infix_nil.mp h with rfl
      exact List.prefix_rfl
  | cons c rest ih =>
    simp only [hasSub, Bool.or_eq_true, List.isPrefixOf_iff_prefix, ih]
    exact (List.infix_cons_iff).symm

/-- Split a character list at every character satisfying `p`, keeping empty
pieces, as Python `str.split(sep)` does for a one-character separator. -/
def splitOnP (p : Char → Bool) : Str → List Str
  | [] => [[]]
  | a :: rest =>
    if p a then [] :: splitOnP p rest
    else
      match splitOnP p rest with
      | [] => [[a]]
      | h :: t => (a :: h) :: t

theorem splitOnP_ne_nil (p : Char → Bool) (s : Str) : splitOnP p s ≠ [] := by
  cases s with
  | nil => simp [splitOnP]
  | cons a rest =>
    simp only [splitOnP]
    split
    · simp
    · split <;> simp

/-- Every piece produced by `splitOnP` consists of characters on which the
predicate is false. -/
theorem mem_splitOnP_chars {p : Char → Bool} {s x : Str} (hx : x ∈ splitOnP p s) :
    ∀ c ∈ x, p c = false := by
  induction s generalizing x with
  | nil =>
    simp only [splitOnP, List.mem_singleton] at hx
    subst hx; intro c hc; cases hc
  | cons a rest ih =>
    simp only [splitOnP] at hx
    by_cases hpa : p a
    · rw [if_pos hpa] at hx
      rcases List.mem_cons.mp hx with rfl | hx'
      · intro c hc; cases hc
      · exact ih hx'
    · rw [if_neg hpa] at hx
      rcases hsplit : splitOnP p rest with _ | ⟨h, t⟩
      · exact absurd hsplit (splitOnP_ne_nil p rest)
      · rw [hsplit] at hx
        have hh : h ∈ splitOnP p rest := by rw [hsplit]; exact List.mem_cons_self h t
        rcases List.mem_cons.mp hx with rfl | hx'
        · intro c hc
          rcases List.mem_cons.mp hc with rfl | hc'
          · exact Bool.eq_false_iff.mpr hpa
          · exact ih hh c hc'
        · have hx2 : x ∈ splitOnP p rest := by
            rw [hsplit]; exact List.mem_cons.mpr (Or.inr hx')
          exact ih hx2

/-- The first piece produced by `splitOnP` is a prefix of the input. -/
theorem splitOnP_head_leading (p : Char → Bool) (s : Str) :
    (splitOnP p s).headD [] <+: s := by
  induction s with
  | nil => simp [splitOnP]
  | cons a rest ih =>
    simp only [splitOnP]
    by_cases hpa : p a
    · rw [if_pos hpa]; exact List.nil_prefix
    · rw [if_neg hpa]
      rcases hsplit : splitOnP p rest with _ | ⟨h, t⟩
      · exact absurd hsplit (splitOnP_ne_nil p rest)
      · rw [hsplit] at ih
        simp only [List.headD_cons]
        exact (List.cons_prefix_cons).mpr ⟨rfl, ih⟩

/-- Every piece produced by `splitOnP` occurs inside the input. -/
theorem mem_splitOnP_within {p : Char → Bool} {s x : Str} (hx : x ∈ splitOnP p s) :
    x <:+: s := by
  induction s generalizing x with
  | nil =>
    simp only [splitOnP, List.mem_singleton] at hx
    subst hx; exact List.infix_rfl
  | cons a rest ih =>
    simp only [splitOnP] at hx
    by_cases hpa : p a
    · rw [if_pos hpa] at hx
      rcases List.mem_cons.mp hx with rfl | hx'
      · exact List.nil_infix
      · exact (ih hx').trans (List.infix_cons List.infix_rfl)
    · rw [if_neg hpa] at hx
      rcases hsplit : splitOnP p rest with _ | ⟨h, t⟩
      · exact absurd hsplit (splitOnP_ne_nil p rest)
      · rw [hsplit] at hx
        rcases List.mem_cons.mp hx with rfl | hx'
        · have hpre : h <+: rest := by
            have := splitOnP_head_leading p rest
            rwa [hsplit, List.headD_cons] at this
          exact ((List.cons_prefix_cons).mpr ⟨rfl, hpre⟩).isInfix
        · have hx2 : x ∈ splitOnP p rest := by
            rw [hsplit]; exact List.mem_cons.mpr (Or.inr hx')
          exact (ih hx2).trans (List.infix_cons List.infix_rfl)

/-- Split `s` around the first occurrence of `sep`, if any: Python
`s.split(sep, 1)` succeeding with two parts. -/
def splitFirst (sep : Str) : Str → Option (Str × Str)
  | [] => if sep.isPrefixOf [] then some ([], []) else none
  | c :: rest =>
    if sep.isPrefixOf (c :: rest) then some ([], (c :: rest).drop sep.length)
    else
      match splitFirst sep rest with
      | some (pre, post) => some (c :: pre, post)
      | none => none

/-- Python `s.split(sep, 1)[0]` (everything before the first `sep`, or all of
`s` when `sep` does not occur). -/
def beforeFirst (sep s : Str) : Str :=
  match splitFirst sep s with
  | some (pre, _) => pre
  | none => s

/-- Python `s.split(sep, 1)[1]` guarded by `sep in s`. -/
def afterFirst (sep s : Str) : Option Str :=
  match splitFirst sep s with
  | some (_, post) => some post
  | none => none

theorem splitFirst_post_lt {sep s pre post : Str} (hsep : sep ≠ [])
    (h : splitFirst sep s = some (pre, post)) : post.length < s.length := by
  induction s generalizing pre with
  | nil =>
    simp only [splitFirst] at h
    rcases sep with _ | ⟨a, t⟩
    · exact absurd rfl hsep
    · simp at h
  | cons c rest ih =>
    simp only [splitFirst] at h
    by_cases hp : sep.isPrefixOf (c :: rest)
    · rw [if_pos hp] at h
      injection h with h'
      injection h' with h1 h2
      subst h2
      rcases sep with _ | ⟨a, t⟩
      · exact absurd rfl hsep
      · simp only [List.length_cons, List.drop_succ_cons]
        calc (rest.drop t.length).length ≤ rest.length := by
              simp [List.length_drop]
          _ < rest.length + 1 := Nat.lt_succ_self _
    · rw [if_neg hp] at h
      rcases hs : splitFirst sep rest with _ | ⟨pre', post'⟩
      · rw [hs] at h; cases h
      · rw [hs] at h
        injection h with h'
        injection h' with h1 h2
        subst h2
        exact Nat.lt_succ_of_lt (ih hs)

/-- Python `s.split(sep)` for a nonempty separator, via fuel-bounded
repetition of `splitFirst`. -/
def splitOnStrGo : Nat → Str → Str → List Str
  | 0, _, s => [s]
  | n + 1, sep, s =>
    match splitFirst sep s with
    | none => [s]
    | some (pre, post) => pre :: splitOnStrGo n sep post

def splitOnStr (sep s : Str) : List Str := splitOnStrGo (s.length + 1) sep s

/-! ### posixpath model

`os.path.normpath`, `os.path.join` and `os.path.relpath` as used by the
server.  `normLoop` is the component loop of `posixpath.normpath` for a
*relative* input (the server strips leading slashes before normalizing);
`normAbsLoop` is the same loop for an absolute input, used by `relpath`
(which normalizes both of its absolute arguments). -/

def dotStr : Str := ".".toList
def dotdotStr : Str := "..".toList

def normLoop : List Str → List Str → List Str
  | acc, [] => acc.reverse
  | acc, c :: rest =>
    if c = [] ∨ c = dotStr then normLoop acc rest
    else if c = dotdotStr then
      match acc with
      | [] => normLoop [dotdotStr] rest
      | top :: tl => if top = dotdotStr then normLoop (c :: acc) rest else normLoop tl rest
    else normLoop (c :: acc) rest

def normAbsLoop : List Str → List Str → List Str
  | acc, [] => acc.reverse
  | acc, c :: rest =>
    if c = [] ∨ c = dotStr then normAbsLoop acc rest
    else if c = dotdotStr then
      match acc with
      | [] => normAbsLoop [] rest
      | top :: tl => if top = dotdotStr then normAbsLoop (c :: acc) rest else normAbsLoop tl rest
    else normAbsLoop (c :: acc) rest

/-- Join path components with `/`. -/
def joinSlash : List Str → Str
  | [] => []
  | [x] => x
  | x :: xs => x ++ '/' :: joinSlash xs

/-- `posixpath.normpath` restricted to relative inputs (no leading `/`). -/
def pynormpathRel (p : Str) : Str :=
  let comps := splitOnP (fun c => c = '/') p
  let out := normLoop [] comps
  if out = [] then dotStr else joinSlash out

/-- `posixpath.join` for two components. -/
def pyjoin (a b : Str) : Str :=
  if b.head? = some '/' then b
  else if a = [] ∨ a.getLast? = some '/' then a ++ b
  else a ++ '/' :: b

/-- Length of the common prefix of two component lists. -/
def commonPrefixLen : List Str → List Str → Nat
  | a :: as, b :: bs => if a = b then commonPrefixLen as bs + 1 else 0
  | _, _ => 0

/-- `posixpath.relpath` for absolute `p` and `start`. -/
def pyrelpath (p start : Str) : Str :=
  let pl := normAbsLoop [] (splitOnP (fun c => c = '/') p)
  let sl := normAbsLoop [] (splitOnP (fun c => c = '/') start)
  let i := commonPrefixLen pl sl
  let rel := List.replicate (sl.length - i) dotdotStr ++ pl.drop i
  if rel = [] then dotStr else joinSlash rel

/-- Python `s.replace("\\", "/")`. -/
def replaceBS (s : Str) : Str := s.map (fun c => if c = '\\' then '/' else c)

/-- Python `s.strip()`. -/
def isPySpace (c : Char) : Bool :=
  c = ' ' || c = '\t' || c = '\n' || c = '\r' || c = '\x0b' || c = '\x0c'

def pyStrip (s : Str) : Str :=
  ((s.dropWhile isPySpace).reverse.dropWhile isPySpace).reverse

/-- Python `s.lower()` (ASCII). -/
def strLower (s : Str) : Str := s.map Char.toLower

/-- Python `s.split()` (split on whitespace runs, dropping empty tokens). -/
def pySplitWs (s : Str) : List Str := (splitOnP isPySpace s).filter (fun x => !x.isEmpty)

/-- `str(n)` for a natural number. -/
def natToStr (n : Nat) : Str := (toString n).toList

/-! ### Server data model (transcribed from `src/server.py`) -/

/-- External library collaborators imported by the server.  `unquote_plus`
and `parse_qs` come from `urllib.parse`; `guess_type` is
`mimetypes.guess_type` (first component), with `none` standing for a falsy
result.  `parse_qs_repr` is the Python string rendering
`str(parse_qs(body))` that the POST branch interpolates into its page. -/
structure Ext where
  unquote_plus : Str → Str
  guess_type : Str → Option Str
  parse_qs_repr : Str → Str

/-- The filesystem, as the queries the handler performs.  `listdir` returns
`none` when enumeration raises (e.g. a permission error); `read` is assumed
total on paths for which `isfile` is true. -/
structure FS where
  isfile : Str → Bool
  isdir : Str → Bool
  listdir : Str → Option (List Str)
  read : Str → Str

/-- The configuration keys the request pipeline consults.  `favicon := none`
models an absent or falsy `config["favicon"]`. -/
structure Config where
  ip_whitelist_enabled : Bool
  ip_whitelist : List Str
  browsable_dirs : List Str
  favicon : Option Str

/-- Parsed request (line 156 of the source).  The opaque connection handle
stored under `"client"` is not modelled. -/
structure Request where
  method : Str
  path : Str
  version : Str
  headers : List (Str × Str)
  body : Str
deriving DecidableEq

/-- A `before_request` callback: `obs` is the observation log it emits when
called with the request; `raises` records that it then raises (the exception
is swallowed by the `except: pass` around the call, so the call contributes
only its observations and the loop continues). -/
structure Hook where
  obs : Request → List Nat
  raises : Bool

/-- In-progress response (the dict built in the GET/POST/other branches). -/
structure Response where
  status : Nat
  headers : List (Str × Str)
  body : Str
deriving DecidableEq

/-- An `after_request` callback: may mutate the response in place unless it
raises, in which case the exception is swallowed and the response is left as
it was. -/
structure AfterHook where
  mutate : Response → Response
  raises : Bool

structure Hooks where
  before_request : List Hook
  after_request : List AfterHook

/-- `BASE_DIR`: the installation directory, environment-dependent at runtime;
fixed here to a representative absolute path. -/
def BASE_DIR : Str := "/base".toList

/-- `WEB_ROOT = os.path.join(BASE_DIR, "root")`. -/
def WEB_ROOT : Str := pyjoin BASE_DIR "root".toList

/-- The reason-phrase table of `http_response`. -/
def reasons (status : Nat) : Str :=
  if status = 200 then "OK".toList
  else if status = 404 then "Not Found".toList
  else if status = 400 then "Bad Request".toList
  else if status = 500 then "Internal Server Error".toList
  else if status = 403 then "Forbidden".toList
  else "OK".toList

/-- `http_response(status, headers, body)`: status line, one line per header
in mapping order, a blank line, then the body bytes. -/
def http_response (status : Nat) (headers : List (Str × Str)) (body : Str) : Str :=
  let header_lines :=
    ("HTTP/1.1 ".toList ++ natToStr status ++ ' ' :: reasons status) ::
      headers.map (fun kv => kv.1 ++ ": ".toList ++ kv.2) ++ [[], []]
  List.intercalate "\r\n".toList header_lines ++ body

/-- Python dict assignment `d[k] = v` on an insertion-ordered association
list: overwrite in place if the key exists, else append. -/
def dictInsert (d : List (Str × Str)) (k v : Str) : List (Str × Str) :=
  if d.any (fun kv => kv.1 == k) then
    d.map (fun kv => if kv.1 == k then (k, v) else kv)
  else d ++ [(k, v)]

/-- The header loop of `parse_request`: stop at the first empty line, split
each line at the first `:` (lines without a colon are skipped), and store
`stripped-lowercased-key ↦ stripped-value`. -/
def parseHeaders : List Str → List (Str × Str) → List (Str × Str)
  | [], acc => acc
  | line :: rest, acc =>
    if line = [] then acc
    else
      match splitFirst ":".toList line with
      | none => parseHeaders rest acc
      | some (k, v) => parseHeaders rest (dictInsert acc (strLower (pyStrip k)) (pyStrip v))

/-- `lines[0]` of `data.split("\r\n")`. -/
def request_line (data : Str) : Str := (splitOnStr "\r\n".toList data).headD []

/-- `parse_request` (lines 144-158): fails (returns `None`) exactly when the
request line does not split into three whitespace-separated tokens. -/
def parse_request (data : Str) : Option Request :=
  let lines := splitOnStr "\r\n".toList data
  match pySplitWs (request_line data) with
  | [method, path, version] =>
    some { method := method, path := path, version := version,
           headers := parseHeaders (lines.drop 1) [],
           body := if method = "POST".toList then
                     (afterFirst "\r\n\r\n".toList data).getD []
                   else [] }
  | _ => none

/-- Lines 161-162 of `sanitize_path`: strip the query string, URL-decode,
strip leading slashes, normalize. -/
def normalizedRel (uq : Str → Str) (path : Str) : Str :=
  pynormpathRel ((uq (beforeFirst "?".toList path)).dropWhile (fun c => c = '/'))

/-- `sanitize_path` (lines 160-164): reject when the normalized relative
path still contains the substring `".."`, else join onto the web root. -/
def sanitize_path (uq : Str → Str) (path : Str) : Option Str :=
  let p := normalizedRel uq path
  if hasSub dotdotStr p then none else some (pyjoin WEB_ROOT p)

/-- `handle_directory` (lines 166-175): an HTML listing with one anchor per
direct child, or the fixed error body when enumeration fails. -/
def handle_directory (fs : FS) (path request_path : Str) : Str :=
  match fs.listdir path with
  | none => "Error listing directory".toList
  | some files =>
    "<html><body><h1>Directory listing</h1><ul>".toList ++
      (files.flatMap (fun file =>
        "<li><a href=\"".toList ++ pyjoin request_path file ++ "\">".toList ++
          file ++ "</a></li>".toList)) ++
      "</ul></body></html>".toList

/-- The `before_request` loop (lines 195-197): every registered callback is
called in registration order; a raised exception is swallowed, so each call
contributes its observations and the loop continues. -/
def runBefore (hs : List Hook) (req : Request) : List Nat :=
  hs.flatMap (fun h => h.obs req)

/-- The `after_request` loop (lines 245-247): each callback may mutate the
response; a raising callback's exception is swallowed, leaving the response
as it was. -/
def runAfter : List AfterHook → Response → Response
  | [], r => r
  | h :: t, r => runAfter t (if h.raises then r else h.mutate r)

/-- The 404 sent at lines 201-203 and 229-231. -/
def notFoundResponse : Str :=
  http_response 404
    [("Content-Length".toList, natToStr "404 Not Found".toList.length)]
    "404 Not Found".toList

/-- The 403 sent at lines 190-192 and 221-223. -/
def forbiddenResponse : Str :=
  http_response 403
    [("Content-Length".toList, natToStr "403 Forbidden".toList.length)]
    "403 Forbidden".toList

/-- The 400 sent at line 184. -/
def badRequestResponse : Str :=
  http_response 400 [("Content-Length".toList, "0".toList)] []

/-- The GET/POST/other dispatch (lines 234-242). -/
def method_response (ext : Ext) (fs : FS) (req : Request) (path : Str) : Response :=
  if req.method = "GET".toList then
    let body := fs.read path
    let mime := (ext.guess_type path).getD "application/octet-stream".toList
    { status := 200,
      headers := [("Content-Type".toList, mime),
                  ("Content-Length".toList, natToStr body.length)],
      body := body }
  else if req.method = "POST".toList then
    { status := 200,
      headers := [("Content-Type".toList, "text/html".toList)],
      body := "<html><body><pre>".toList ++ ext.parse_qs_repr req.body ++
                "</pre></body></html>".toList }
  else { status := 400, headers := [("Content-Length".toList, "0".toList)], body := [] }

/-- Lines 228-249: the existence check, method dispatch, `after_request`
hooks and final send for a path that reached the file-serving stage. -/
def respond_file (ext : Ext) (hooks : Hooks) (fs : FS) (req : Request) (path : Str) :
    List Str :=
  if fs.isfile path = false then [notFoundResponse]
  else
    let response := runAfter hooks.after_request (method_response ext fs req path)
    [http_response response.status response.headers response.body]

/-- Line 219: the directory's path relative to the web root, slash-prefixed
with backslashes replaced. -/
def dirRelPath (path : Str) : Str := '/' :: replaceBS (pyrelpath path WEB_ROOT)

/-- Lines 214-249: directory handling (index redirect, browsable check,
listing) followed by the file-serving stage. -/
def respond_resolved (ext : Ext) (cfg : Config) (hooks : Hooks) (fs : FS)
    (req : Request) (path : Str) : List Str :=
  if fs.isdir path then
    let index_file := pyjoin path "index.html".toList
    if fs.isfile index_file then respond_file ext hooks fs req index_file
    else
      let rel_path := dirRelPath path
      if cfg.browsable_dirs.contains rel_path = false then [forbiddenResponse]
      else
        let body := handle_directory fs path rel_path
        [http_response 200
          [("Content-Type".toList, "text/html".toList),
           ("Content-Length".toList, natToStr body.length)] body]
  else respond_file ext hooks fs req path

/-- The favicon shortcut condition (lines 206-208): the request path is the
literal `"/favicon.ico"`, a favicon is configured, its path re-sanitizes,
and the result is a regular file; returns that file's path. -/
def favicon_served (ext : Ext) (cfg : Config) (fs : FS) (req : Request) : Option Str :=
  if req.path = "/favicon.ico".toList then
    match cfg.favicon with
    | some fav =>
      match sanitize_path ext.unquote_plus fav with
      | some fp => if fs.isfile fp then some fp else none
      | none => none
    | none => none
  else none

/-- Lines 206-249: favicon shortcut, then directory/file resolution. -/
def respond_sanitized (ext : Ext) (cfg : Config) (hooks : Hooks) (fs : FS)
    (req : Request) (path : Str) : List Str :=
  match favicon_served ext cfg fs req with
  | some fp =>
    let body := fs.read fp
    [http_response 200
      [("Content-Type".toList, "image/x-icon".toList),
       ("Content-Length".toList, natToStr body.length)] body]
  | none => respond_resolved ext cfg hooks fs req path

/-- `handle_client` (lines 178-249) on the single buffer read from the
connection: returns the `before_request` observation log and the list of
`conn.sendall` payloads. -/
def handle_client (ext : Ext) (cfg : Config) (hooks : Hooks) (fs : FS)
    (addr : Str) (data : Str) : List Nat × List Str :=
  if data = [] then ([], [])
  else
    match parse_request data with
    | none => ([], [badRequestResponse])
    | some req =>
      if cfg.ip_whitelist_enabled && !(cfg.ip_whitelist.contains addr) then
        ([], [forbiddenResponse])
      else
        let log := runBefore hooks.before_request req
        match sanitize_path ext.unquote_plus req.path with
        | none => (log, [notFoundResponse])
        | some path => (log, respond_sanitized ext cfg hooks fs req path)

/-! ### Path containment (claims C1 and C10) -/

theorem normLoop_mem {acc l : List Str} {x : Str} (hx : x ∈ normLoop acc l) :
    x ∈ acc ∨ x ∈ l ∨ x = dotdotStr := by
  induction l generalizing acc with
  | nil =>
    simp only [normLoop, List.mem_reverse] at hx
    exact Or.inl hx
  | cons c rest ih =>
    simp only [normLoop] at hx
    by_cases h1 : c = [] ∨ c = dotStr
    · rw [if_pos h1] at hx
      rcases ih hx with h | h | h
      · exact Or.inl h
      · exact Or.inr (Or.inl (List.mem_cons.mpr (Or.inr h)))
      · exact Or.inr (Or.inr h)
    · rw [if_neg h1] at hx
      by_cases h2 : c = dotdotStr
      · rw [if_pos h2] at hx
        rcases acc with _ | ⟨top, tl⟩
        · dsimp only at hx
          rcases ih hx with h | h | h
          · rcases List.mem_singleton.mp h with rfl
            exact Or.inr (Or.inr rfl)
          · exact Or.inr (Or.inl (List.mem_cons.mpr (Or.inr h)))
          · exact Or.inr (Or.inr h)
        · dsimp only at hx
          by_cases h3 : top = dotdotStr
          · rw [if_pos h3] at hx
            rcases ih hx with h | h | h
            · rcases List.mem_cons.mp h with rfl | h'
              · exact Or.inr (Or.inr h2)
              · exact Or.inl h'
            · exact Or.inr (Or.inl (List.mem_cons.mpr (Or.inr h)))
            · exact Or.inr (Or.inr h)
          · rw [if_neg h3] at hx
            rcases ih hx with h | h | h
            · exact Or.inl (List.mem_cons.mpr (Or.inr h))
            · exact Or.inr (Or.inl (List.mem_cons.mpr (Or.inr h)))
            · exact Or.inr (Or.inr h)
      · rw [if_neg h2] at hx
        rcases ih hx with h | h | h
        · rcases List.mem_cons.mp h with rfl | h'
          · exact Or.inr (Or.inl (List.mem_cons.mpr (Or.inl rfl)))
          · exact Or.inl h'
        · exact Or.inr (Or.inl (List.mem_cons.mpr (Or.inr h)))
        · exact Or.inr (Or.inr h)

theorem normLoop_good {acc l : List Str} (hacc : ∀ x ∈ acc, x ≠ [] ∧ x ≠ dotStr) :
    ∀ x ∈ normLoop acc l, x ≠ [] ∧ x ≠ dotStr := by
  induction l generalizing acc with
  | nil =>
    intro x hx
    simp only [normLoop, List.mem_reverse] at hx
    exact hacc x hx
  | cons c rest ih =>
    intro x hx
    simp only [normLoop] at hx
    by_cases h1 : c = [] ∨ c = dotStr
    · rw [if_pos h1] at hx
      exact ih hacc x hx
    · rw [if_neg h1] at hx
      push_neg at h1
      by_cases h2 : c = dotdotStr
      · rw [if_pos h2] at hx
        rcases acc with _ | ⟨top, tl⟩
        · dsimp only at hx
          refine ih ?_ x hx
          intro y hy
          rcases List.mem_singleton.mp hy with rfl
          exact ⟨by decide, by decide⟩
        · dsimp only at hx
          by_cases h3 : top = dotdotStr
          · rw [if_pos h3] at hx
            refine ih ?_ x hx
            intro y hy
            rcases List.mem_cons.mp hy with rfl | hy'
            · exact ⟨by simp [h2, dotdotStr], by simp [h2, dotdotStr, dotStr]⟩
            · exact hacc y hy'
          · rw [if_neg h3] at hx
            refine ih ?_ x hx
            intro y hy
            exact hacc y (List.mem_cons.mpr (Or.inr hy))
      · rw [if_neg h2] at hx
        refine ih ?_ x hx
        intro y hy
        rcases List.mem_cons.mp hy with rfl | hy'
        · exact h1
        · exact hacc y hy'

theorem joinSlash_head {l : List Str} (hne : l ≠ []) (hx : ∀ e ∈ l, e ≠ []) :
    (joinSlash l).head? = (l.headD []).head? := by
  rcases l with _ | ⟨x, xs⟩
  · exact absurd rfl hne
  · rcases xs with _ | ⟨y, ys⟩
    · rfl
    · rcases hx0 : x with _ | ⟨c, cs⟩
      · exact absurd hx0 (hx x (List.mem_cons.mpr (Or.inl rfl)))
      · simp [joinSlash, hx0]

/-- The normalized relative path never begins with a separator. -/
theorem pynormpathRel_head (p : Str) : (pynormpathRel p).head? ≠ some '/' := by
  simp only [pynormpathRel]
  rcases hout : normLoop [] (splitOnP (fun c => c = '/') p) with _ | ⟨h, t⟩
  · rw [if_pos rfl]
    decide
  · have hmem : ∀ x ∈ normLoop [] (splitOnP (fun c => c = '/') p), x ≠ [] ∧ x ≠ dotStr :=
      normLoop_good (by intro x hx; cases hx)
    have hne : ∀ e ∈ h :: t, e ≠ [] := by
      intro e he
      refine (hmem e ?_).1
      rw [hout]; exact he
    have hh : h ∈ normLoop [] (splitOnP (fun c => c = '/') p) := by
      rw [hout]; exact List.mem_cons_self h t
    rw [if_neg (by simp), joinSlash_head (by simp) hne]
    simp only [List.headD_cons]
    rcases normLoop_mem hh with hc | hc | hc
    · cases hc
    · rcases h with _ | ⟨c, cs⟩
      · exact absurd rfl (hmem _ hh).1
      · have hslash := mem_splitOnP_chars hc c (List.mem_cons_self c cs)
        simp only [List.head?_cons, ne_eq, Option.some.injEq]
        simp only [decide_eq_false_iff_not] at hslash
        exact hslash
    · subst hc
      decide

/-- What a successful `sanitize_path` returns: the web root, a separator,
then the normalized relative path, which contains no `".."` substring. -/
theorem sanitize_path_some {uq : Str → Str} {p q : Str}
    (h : sanitize_path uq p = some q) :
    q = WEB_ROOT ++ '/' :: normalizedRel uq p ∧
      ¬(dotdotStr <:+: normalizedRel uq p) := by
  unfold sanitize_path at h
  by_cases hsub : hasSub dotdotStr (normalizedRel uq p) = true
  · rw [if_pos hsub] at h; cases h
  · rw [if_neg hsub] at h
    injection h with h
    subst h
    refine ⟨?_, fun hinf => hsub (hasSub_iff.mpr hinf)⟩
    have hb : ¬((normalizedRel uq p).head? = some '/') := by
      unfold normalizedRel; exact pynormpathRel_head _
    have ha : ¬(WEB_ROOT = [] ∨ WEB_ROOT.getLast? = some '/') := by decide
    unfold pyjoin
    rw [if_neg hb, if_neg ha]

/-- Evaluating the pipeline once a request has parsed and passed the IP
whitelist: hooks run, then the path is sanitized and dispatched. -/
theorem handle_client_eq {ext : Ext} {cfg : Config} {hooks : Hooks} {fs : FS}
    {addr data : Str} {req : Request}
    (hparse : parse_request data = some req)
    (hwl : (cfg.ip_whitelist_enabled && !(cfg.ip_whitelist.contains addr)) = false) :
    handle_client ext cfg hooks fs addr data =
      (runBefore hooks.before_request req,
        match sanitize_path ext.unquote_plus req.path with
        | none => [notFoundResponse]
        | some path => respond_sanitized ext cfg hooks fs req path) := by
  have hdata : data ≠ [] := by
    intro e
    rw [e, show parse_request [] = none from rfl] at hparse
    cases hparse
  unfold handle_client
  rw [if_neg hdata, hparse, hwl]
  simp only [Bool.false_eq_true, if_false]
  cases sanitize_path ext.unquote_plus req.path <;> rfl

/-! ### Concrete fixtures for witnesses and counterexamples -/

/-- External functions instantiated trivially for concrete runs: a decoder
that leaves already-decoded paths unchanged (as `unquote_plus` does on
escape-free input), no known MIME types, and a raw rendering of form data. -/
def extId : Ext :=
  { unquote_plus := id, guess_type := fun _ => none, parse_qs_repr := id }

def hooksNone : Hooks := { before_request := [], after_request := [] }

def cfgOpen : Config :=
  { ip_whitelist_enabled := false, ip_whitelist := [], browsable_dirs := [],
    favicon := none }

def fsEmpty : FS :=
  { isfile := fun _ => false, isdir := fun _ => false, listdir := fun _ => none,
    read := fun _ => [] }

def reqTraversal : Request :=
  { method := "GET".toList, path := "/../secret".toList,
    version := "HTTP/1.1".toList, headers := [], body := [] }

/-- C1: path resolution either fails or returns the web root extended by a
separator and a relative path containing no `".."`; and any request whose
path still contains a `".."` segment after normalization is rejected by
`sanitize_path` and the pipeline answers it with the 404 response, for
every filesystem. -/
theorem sanitize_path_containment_404
    (ext : Ext) (cfg : Config) (hooks : Hooks) (fs : FS)
    (addr data : Str) (req : Request) (p : Str)
    (hparse : parse_request data = some req)
    (hwl : (cfg.ip_whitelist_enabled && !(cfg.ip_whitelist.contains addr)) = false)
    (hseg : dotdotStr ∈ splitOnP (fun c => c = '/')
      (normalizedRel ext.unquote_plus req.path)) :
    (sanitize_path ext.unquote_plus p = none ∨
      ∃ rel, sanitize_path ext.unquote_plus p = some (WEB_ROOT ++ '/' :: rel) ∧
        ¬(dotdotStr <:+: rel)) ∧
    sanitize_path ext.unquote_plus req.path = none ∧
    handle_client ext cfg hooks fs addr data =
      (runBefore hooks.before_request req, [notFoundResponse]) := by
  have hinf : dotdotStr <:+: normalizedRel ext.unquote_plus req.path :=
    mem_splitOnP_within hseg
  have hnone : sanitize_path ext.unquote_plus req.path = none := by
    unfold sanitize_path
    rw [if_pos (hasSub_iff.mpr hinf)]
  refine ⟨?_, hnone, ?_⟩
  · rcases hs : sanitize_path ext.unquote_plus p with _ | q
    · exact Or.inl rfl
    · right
      rcases sanitize_path_some hs with ⟨hq, hrel⟩
      exact ⟨normalizedRel ext.unquote_plus p, congrArg some hq, hrel⟩
  · rw [handle_client_eq hparse hwl, hnone]

theorem sanitize_path_containment_404_witness :
    (sanitize_path extId.unquote_plus "/ok.txt".toList = none ∨
      ∃ rel, sanitize_path extId.unquote_plus "/ok.txt".toList =
          some (WEB_ROOT ++ '/' :: rel) ∧ ¬(dotdotStr <:+: rel)) ∧
    sanitize_path extId.unquote_plus reqTraversal.path = none ∧
    handle_client extId cfgOpen hooksNone fsEmpty "1.2.3.4".toList
        "GET /../secret HTTP/1.1\r\n\r\n".toList =
      (runBefore hooksNone.before_request reqTraversal, [notFoundResponse]) :=
  sanitize_path_containment_404 extId cfgOpen hooksNone fsEmpty "1.2.3.4".toList
    "GET /../secret HTTP/1.1\r\n\r\n".toList reqTraversal "/ok.txt".toList
    (by decide) (by decide) (by decide)

/-- Filesystem in which `/base/root/a..b.txt` exists as a regular file. -/
def fsDotFile : FS :=
  { isfile := fun p => p = "/base/root/a..b.txt".toList,
    isdir := fun _ => false, listdir := fun _ => none,
    read := fun _ => "SECRET".toList }

def reqDotName : Request :=
  { method := "GET".toList, path := "/a..b.txt".toList,
    version := "HTTP/1.1".toList, headers := [], body := [] }

/-- C10: `sanitize_path` rejects every request path whose normalized
relative form contains the two-character substring `".."` anywhere — also
inside an ordinary file name — and the pipeline answers 404, for every
filesystem, in particular one where the named file exists under the web
root. -/
theorem dotdot_substring_rejected_404
    (ext : Ext) (cfg : Config) (hooks : Hooks) (fs : FS)
    (addr data : Str) (req : Request)
    (hparse : parse_request data = some req)
    (hwl : (cfg.ip_whitelist_enabled && !(cfg.ip_whitelist.contains addr)) = false)
    (hsub : dotdotStr <:+: normalizedRel ext.unquote_plus req.path) :
    sanitize_path ext.unquote_plus req.path = none ∧
    handle_client ext cfg hooks fs addr data =
      (runBefore hooks.before_request req, [notFoundResponse]) := by
  have hnone : sanitize_path ext.unquote_plus req.path = none := by
    unfold sanitize_path
    rw [if_pos (hasSub_iff.mpr hsub)]
  refine ⟨hnone, ?_⟩
  rw [handle_client_eq hparse hwl, hnone]

theorem dotdot_substring_rejected_404_witness :
    fsDotFile.isfile "/base/root/a..b.txt".toList = true ∧
    normalizedRel extId.unquote_plus reqDotName.path = "a..b.txt".toList ∧
    (sanitize_path extId.unquote_plus reqDotName.path = none ∧
      handle_client extId cfgOpen hooksNone fsDotFile "1.2.3.4".toList
          "GET /a..b.txt HTTP/1.1\r\n\r\n".toList =
        (runBefore hooksNone.before_request reqDotName, [notFoundResponse])) :=
  ⟨by decide, by decide,
    dotdot_substring_rejected_404 extId cfgOpen hooksNone fsDotFile
      "1.2.3.4".toList "GET /a..b.txt HTTP/1.1\r\n\r\n".toList reqDotName
      (by decide) (by decide) (by decide)⟩

def cfgWhitelist : Config :=
  { ip_whitelist_enabled := true, ip_whitelist := ["127.0.0.1".toList],
    browsable_dirs := [], favicon := none }

def reqRoot : Request :=
  { method := "GET".toList, path := "/".toList, version := "HTTP/1.1".toList,
    headers := [], body := [] }

/-- C2 counterexample: with the whitelist enabled and a non-member remote
address, a nonempty byte stream that fails request decoding is answered
400, not 403 — decoding runs before the whitelist check. -/
theorem whitelist_first_counterexample :
    cfgWhitelist.ip_whitelist_enabled = true ∧
    cfgWhitelist.ip_whitelist.contains "10.0.0.1".toList = false ∧
    "xyz".toList ≠ ([] : Str) ∧
    handle_client extId cfgWhitelist hooksNone fsEmpty "10.0.0.1".toList
        "xyz".toList = ([], [badRequestResponse]) ∧
    badRequestResponse ≠ forbiddenResponse := by
  refine ⟨rfl, by decide, by decide, by decide, by decide⟩

/-- C2 (amended): when the whitelist is enabled and the remote address is
not a literal member, every connection whose byte stream decodes into a
request is answered 403, the hook observation log is empty, and the
response is the same for every hook registry, filesystem and request path
— the check precedes hooks and path validation.  (Byte streams that fail
decoding are answered 400, and empty reads get no response.) -/
theorem whitelist_403_for_parsed
    (ext : Ext) (cfg : Config) (hooks : Hooks) (fs : FS) (addr data : Str)
    (req : Request)
    (hparse : parse_request data = some req)
    (hen : cfg.ip_whitelist_enabled = true)
    (hmem : cfg.ip_whitelist.contains addr = false) :
    handle_client ext cfg hooks fs addr data = ([], [forbiddenResponse]) := by
  have hdata : data ≠ [] := by
    intro e
    rw [e, show parse_request [] = none from rfl] at hparse
    cases hparse
  unfold handle_client
  rw [if_neg hdata, hparse, hen, hmem]
  simp

theorem whitelist_403_for_parsed_witness :
    handle_client extId cfgWhitelist hooksNone fsEmpty "10.0.0.1".toList
        "GET / HTTP/1.1\r\n\r\n".toList = ([], [forbiddenResponse]) :=
  whitelist_403_for_parsed extId cfgWhitelist hooksNone fsEmpty
    "10.0.0.1".toList "GET / HTTP/1.1\r\n\r\n".toList reqRoot
    (by decide) rfl (by decide)

theorem splitFirst_colon_none {s : Str} (h : s.contains ':' = false) :
    splitFirst ":".toList s = none := by
  induction s with
  | nil => rfl
  | cons a rest ih =>
    simp only [List.contains_cons, Bool.or_eq_false_iff] at h
    have ha : (':' == a) = false := by
      rcases h with ⟨h1, _⟩
      simp only [beq_eq_false_iff_ne] at h1 ⊢
      exact h1
    show splitFirst [':'] (a :: rest) = none
    simp only [splitFirst, List.isPrefixOf, ha, Bool.false_and]
    rw [if_neg (by simp)]
    have := ih h.2
    rw [show splitFirst ":".toList rest = splitFirst [':'] rest from rfl] at this
    rw [this]

theorem parseHeaders_skip {line : Str} (rest : List Str) (acc : List (Str × Str))
    (hne : line ≠ []) (hnc : line.contains ':' = false) :
    parseHeaders (line :: rest) acc = parseHeaders rest acc := by
  simp only [parseHeaders]
  rw [if_neg hne, splitFirst_colon_none hnc]

theorem parse_request_fail_iff (data : Str) :
    parse_request data = none ↔ (pySplitWs (request_line data)).length ≠ 3 := by
  simp only [parse_request]
  rcases pySplitWs (request_line data) with _ | ⟨a, _ | ⟨b, _ | ⟨c, _ | ⟨d, t⟩⟩⟩⟩ <;>
    simp

/-- C7: request decoding fails iff the request line does not split into
exactly three whitespace-separated tokens; a nonempty header line lacking a
colon is skipped by the header loop rather than causing failure; and a
decoding failure on a nonempty read is answered with the 400 response,
whose body is empty. -/
theorem parse_request_failure_behavior
    (ext : Ext) (cfg : Config) (hooks : Hooks) (fs : FS) (addr : Str)
    (data1 data2 line : Str) (rest : List Str) (acc : List (Str × Str))
    (hne : data1 ≠ []) (hfail : parse_request data1 = none)
    (hl : line ≠ []) (hnc : line.contains ':' = false) :
    (parse_request data2 = none ↔ (pySplitWs (request_line data2)).length ≠ 3) ∧
    parseHeaders (line :: rest) acc = parseHeaders rest acc ∧
    handle_client ext cfg hooks fs addr data1 = ([], [badRequestResponse]) := by
  refine ⟨parse_request_fail_iff data2, parseHeaders_skip rest acc hl hnc, ?_⟩
  unfold handle_client
  rw [if_neg hne, hfail]

theorem parse_request_failure_behavior_witness :
    (parse_request "one two three four\r\n\r\n".toList = none ↔
      (pySplitWs (request_line "one two three four\r\n\r\n".toList)).length ≠ 3) ∧
    parseHeaders ("NoColonHere".toList :: []) [] = parseHeaders [] [] ∧
    handle_client extId cfgOpen hooksNone fsEmpty "1.2.3.4".toList
        "one two three four\r\n\r\n".toList = ([], [badRequestResponse]) :=
  parse_request_failure_behavior extId cfgOpen hooksNone fsEmpty "1.2.3.4".toList
    "one two three four\r\n\r\n".toList "one two three four\r\n\r\n".toList
    "NoColonHere".toList [] [] (by decide) (by decide) (by decide) (by decide)

/-- C6: pre-resolution hooks run strictly in registration order — the
observation log is the registration-order concatenation of each hook's
observations, whether or not any of them raises — and the transmitted
response equals the one produced with no pre-resolution hooks at all: a
raising hook never aborts the pipeline, affects other hooks, or surfaces
as an HTTP error, and the pipeline still reaches resource resolution. -/
theorem before_hooks_order_isolation
    (ext : Ext) (cfg : Config) (fs : FS) (addr data : Str) (req : Request)
    (bh : List Hook) (ah : List AfterHook)
    (hparse : parse_request data = some req)
    (hwl : (cfg.ip_whitelist_enabled && !(cfg.ip_whitelist.contains addr)) = false) :
    handle_client ext cfg ⟨bh, ah⟩ fs addr data =
      (bh.flatMap (fun h => h.obs req),
        (handle_client ext cfg ⟨[], ah⟩ fs addr data).2) := by
  rw [handle_client_eq hparse hwl, handle_client_eq hparse hwl]
  cases sanitize_path ext.unquote_plus req.path <;> rfl

def hookA : Hook := { obs := fun _ => [0], raises := true }

def hookB : Hook := { obs := fun _ => [1], raises := false }

theorem before_hooks_order_isolation_witness :
    handle_client extId cfgOpen ⟨[hookA, hookB], []⟩ fsEmpty "1.2.3.4".toList
        "GET / HTTP/1.1\r\n\r\n".toList =
      ([0, 1],
        (handle_client extId cfgOpen ⟨[], []⟩ fsEmpty "1.2.3.4".toList
            "GET / HTTP/1.1\r\n\r\n".toList).2) :=
  before_hooks_order_isolation extId cfgOpen fsEmpty "1.2.3.4".toList
    "GET / HTTP/1.1\r\n\r\n".toList reqRoot [hookA, hookB] []
    (by decide) (by decide)

/-! ### Stage-reduction lemmas for the resource resolver -/

theorem respond_sanitized_no_favicon {ext : Ext} {cfg : Config} {hooks : Hooks}
    {fs : FS} {req : Request} {path : Str}
    (hfav : favicon_served ext cfg fs req = none) :
    respond_sanitized ext cfg hooks fs req path =
      respond_resolved ext cfg hooks fs req path := by
  unfold respond_sanitized
  rw [hfav]

theorem respond_sanitized_favicon {ext : Ext} {cfg : Config} {hooks : Hooks}
    {fs : FS} {req : Request} {path fp : Str}
    (hfav : favicon_served ext cfg fs req = some fp) :
    respond_sanitized ext cfg hooks fs req path =
      [http_response 200
        [("Content-Type".toList, "image/x-icon".toList),
         ("Content-Length".toList, natToStr (fs.read fp).length)]
        (fs.read fp)] := by
  unfold respond_sanitized
  rw [hfav]

theorem respond_resolved_not_dir {ext : Ext} {cfg : Config} {hooks : Hooks}
    {fs : FS} {req : Request} {path : Str}
    (hdir : fs.isdir path = false) :
    respond_resolved ext cfg hooks fs req path =
      respond_file ext hooks fs req path := by
  unfold respond_resolved
  rw [hdir]
  simp

theorem respond_file_missing {ext : Ext} {hooks : Hooks} {fs : FS}
    {req : Request} {path : Str} (hfile : fs.isfile path = false) :
    respond_file ext hooks fs req path = [notFoundResponse] := by
  unfold respond_file
  rw [hfile]
  simp

theorem respond_file_exists {ext : Ext} {hooks : Hooks} {fs : FS}
    {req : Request} {path : Str} (hfile : fs.isfile path = true) :
    respond_file ext hooks fs req path =
      [http_response
        (runAfter hooks.after_request (method_response ext fs req path)).status
        (runAfter hooks.after_request (method_response ext fs req path)).headers
        (runAfter hooks.after_request (method_response ext fs req path)).body] := by
  unfold respond_file
  rw [hfile]
  simp

theorem method_response_get {ext : Ext} {fs : FS} {req : Request} {path : Str}
    (h : req.method = "GET".toList) :
    method_response ext fs req path =
      { status := 200,
        headers := [("Content-Type".toList,
                      (ext.guess_type path).getD "application/octet-stream".toList),
                    ("Content-Length".toList, natToStr (fs.read path).length)],
        body := fs.read path } := by
  unfold method_response
  rw [h, if_pos rfl]

theorem method_response_post {ext : Ext} {fs : FS} {req : Request} {path : Str}
    (h : req.method = "POST".toList) :
    method_response ext fs req path =
      { status := 200,
        headers := [("Content-Type".toList, "text/html".toList)],
        body := "<html><body><pre>".toList ++ ext.parse_qs_repr req.body ++
          "</pre></body></html>".toList } := by
  unfold method_response
  rw [h, if_neg (by decide), if_pos rfl]

/-- C3 counterexample: a POST whose path passes resolution but whose target
does not exist on the filesystem is answered 404 with no echo — the
existence check at line 228 precedes method dispatch, so the response is
not independent of the target's existence. -/
theorem post_echo_counterexample :
    sanitize_path extId.unquote_plus "/missing".toList =
      some "/base/root/missing".toList ∧
    handle_client extId cfgOpen hooksNone fsEmpty "1.2.3.4".toList
        "POST /missing HTTP/1.1\r\n\r\na=1".toList = ([], [notFoundResponse]) ∧
    ¬("HTTP/1.1 200".toList <+: notFoundResponse) := by
  refine ⟨by decide, by decide, by decide⟩

/-- C3 (amended): a POST whose path resolves to an existing regular file —
not a directory, not intercepted by the favicon shortcut — is answered 200
with an HTML body echoing the rendered form fields of the request body,
and the target file's contents are never read: the response is built from
the request body alone, for every `read` function. -/
theorem post_echo_on_existing_file
    (ext : Ext) (cfg : Config) (bh : List Hook) (fs : FS) (addr data : Str)
    (req : Request) (path : Str)
    (hparse : parse_request data = some req)
    (hwl : (cfg.ip_whitelist_enabled && !(cfg.ip_whitelist.contains addr)) = false)
    (hmethod : req.method = "POST".toList)
    (hsan : sanitize_path ext.unquote_plus req.path = some path)
    (hfav : favicon_served ext cfg fs req = none)
    (hdir : fs.isdir path = false)
    (hfile : fs.isfile path = true) :
    handle_client ext cfg ⟨bh, []⟩ fs addr data =
      (runBefore bh req,
        [http_response 200 [("Content-Type".toList, "text/html".toList)]
          ("<html><body><pre>".toList ++ ext.parse_qs_repr req.body ++
            "</pre></body></html>".toList)]) := by
  rw [handle_client_eq hparse hwl, hsan]
  dsimp only
  rw [respond_sanitized_no_favicon hfav, respond_resolved_not_dir hdir,
    respond_file_exists hfile, method_response_post hmethod]
  rfl

def fsPostFile : FS :=
  { isfile := fun p => p = "/base/root/form.html".toList,
    isdir := fun _ => false, listdir := fun _ => none,
    read := fun _ => "FILECONTENTS".toList }

def reqPostForm : Request :=
  { method := "POST".toList, path := "/form.html".toList,
    version := "HTTP/1.1".toList, headers := [], body := "a=1&b=2".toList }

theorem post_echo_on_existing_file_witness :
    handle_client extId cfgOpen ⟨[], []⟩ fsPostFile "1.2.3.4".toList
        "POST /form.html HTTP/1.1\r\n\r\na=1&b=2".toList =
      (runBefore [] reqPostForm,
        [http_response 200 [("Content-Type".toList, "text/html".toList)]
          ("<html><body><pre>".toList ++
            extId.parse_qs_repr reqPostForm.body ++
            "</pre></body></html>".toList)]) :=
  post_echo_on_existing_file extId cfgOpen [] fsPostFile "1.2.3.4".toList
    "POST /form.html HTTP/1.1\r\n\r\na=1&b=2".toList reqPostForm
    "/base/root/form.html".toList
    (by decide) (by decide) (by decide) (by decide) (by decide) (by decide)
    (by decide)

def extGuess : Ext :=
  { unquote_plus := id,
    guess_type := fun p =>
      if p = "/base/root/logo.png".toList then some "image/png".toList else none,
    parse_qs_repr := id }

def fsFavicon : FS :=
  { isfile := fun p =>
      p = "/base/root/favicon.ico".toList || p = "/base/root/logo.png".toList,
    isdir := fun _ => false, listdir := fun _ => none,
    read := fun p =>
      if p = "/base/root/logo.png".toList then "PNG".toList else "ICO".toList }

def cfgFavicon : Config :=
  { ip_whitelist_enabled := false, ip_whitelist := [], browsable_dirs := [],
    favicon := some "/logo.png".toList }

/-- C4 counterexample: with a favicon configured to a different file, a GET
for `/favicon.ico` — a path that resolves to an existing regular file whose
contents are `"ICO"` — is answered with the configured favicon's bytes
`"PNG"` under Content-Type `image/x-icon`: the body is not byte-identical
to the resolved file and the Content-Type is not guessed from its
extension, because the favicon shortcut runs first. -/
theorem get_file_counterexample :
    sanitize_path extGuess.unquote_plus "/favicon.ico".toList =
      some "/base/root/favicon.ico".toList ∧
    fsFavicon.isfile "/base/root/favicon.ico".toList = true ∧
    fsFavicon.read "/base/root/favicon.ico".toList = "ICO".toList ∧
    handle_client extGuess cfgFavicon hooksNone fsFavicon "1.2.3.4".toList
        "GET /favicon.ico HTTP/1.1\r\n\r\n".toList =
      ([], [http_response 200
        [("Content-Type".toList, "image/x-icon".toList),
         ("Content-Length".toList, "3".toList)] "PNG".toList]) ∧
    "PNG".toList ≠ "ICO".toList := by
  refine ⟨by decide, by decide, by decide, by decide, by decide⟩

/-- C4 (amended): a GET whose path resolves to an existing regular file —
not a directory, and not intercepted by the favicon shortcut — is answered
200 with a Content-Length equal to the file's byte length, a body
byte-identical to the file's contents, and a Content-Type guessed from the
file path, falling back to `application/octet-stream` when the guess is
falsy. -/
theorem get_file_served
    (ext : Ext) (cfg : Config) (bh : List Hook) (fs : FS) (addr data : Str)
    (req : Request) (path : Str)
    (hparse : parse_request data = some req)
    (hwl : (cfg.ip_whitelist_enabled && !(cfg.ip_whitelist.contains addr)) = false)
    (hmethod : req.method = "GET".toList)
    (hsan : sanitize_path ext.unquote_plus req.path = some path)
    (hfav : favicon_served ext cfg fs req = none)
    (hdir : fs.isdir path = false)
    (hfile : fs.isfile path = true) :
    handle_client ext cfg ⟨bh, []⟩ fs addr data =
      (runBefore bh req,
        [http_response 200
          [("Content-Type".toList,
             (ext.guess_type path).getD "application/octet-stream".toList),
           ("Content-Length".toList, natToStr (fs.read path).length)]
          (fs.read path)]) := by
  rw [handle_client_eq hparse hwl, hsan]
  dsimp only
  rw [respond_sanitized_no_favicon hfav, respond_resolved_not_dir hdir,
    respond_file_exists hfile, method_response_get hmethod]
  rfl

def reqLogo : Request :=
  { method := "GET".toList, path := "/logo.png".toList,
    version := "HTTP/1.1".toList, headers := [], body := [] }

theorem get_file_served_witness :
    handle_client extGuess cfgFavicon ⟨[], []⟩ fsFavicon "1.2.3.4".toList
        "GET /logo.png HTTP/1.1\r\n\r\n".toList =
      (runBefore [] reqLogo,
        [http_response 200
          [("Content-Type".toList,
             (extGuess.guess_type "/base/root/logo.png".toList).getD
               "application/octet-stream".toList),
           ("Content-Length".toList,
             natToStr (fsFavicon.read "/base/root/logo.png".toList).length)]
          (fsFavicon.read "/base/root/logo.png".toList)]) :=
  get_file_served extGuess cfgFavicon [] fsFavicon "1.2.3.4".toList
    "GET /logo.png HTTP/1.1\r\n\r\n".toList reqLogo "/base/root/logo.png".toList
    (by decide) (by decide) (by decide) (by decide) (by decide) (by decide)
    (by decide)

/-- C8 counterexample: with the favicon configured as `/logo.png`, a request
whose path equals that configured value is not served through the favicon
shortcut: it is resolved normally and served with its guessed Content-Type
`image/png`, not `image/x-icon` — the shortcut's route is the hard-coded
literal `/favicon.ico` (line 206), not the configured value. -/
theorem favicon_route_counterexample :
    cfgFavicon.favicon = some "/logo.png".toList ∧
    handle_client extGuess cfgFavicon hooksNone fsFavicon "1.2.3.4".toList
        "GET /logo.png HTTP/1.1\r\n\r\n".toList =
      ([], [http_response 200
        [("Content-Type".toList, "image/png".toList),
         ("Content-Length".toList, "3".toList)] "PNG".toList]) ∧
    "image/png".toList ≠ "image/x-icon".toList :=
  ⟨rfl, by decide, by decide⟩

/-- C8 (amended): for a request whose path equals the literal route
`/favicon.ico` — the route is hard-coded, not configured — when a favicon
is configured and its configured path itself re-sanitizes to an existing
regular file, that file is served with status 200 and MIME type
`image/x-icon`; when the shortcut does not engage (no favicon configured,
or its path does not sanitize, or it is not a regular file), the request
falls through to normal resolution of the sanitized request path. -/
theorem favicon_route_behavior
    (ext : Ext) (cfg : Config) (hooks : Hooks) (fs : FS) (addr data : Str)
    (req : Request) (path : Str)
    (hparse : parse_request data = some req)
    (hwl : (cfg.ip_whitelist_enabled && !(cfg.ip_whitelist.contains addr)) = false)
    (hsan : sanitize_path ext.unquote_plus req.path = some path)
    (hroute : req.path = "/favicon.ico".toList) :
    (∀ fav fp, cfg.favicon = some fav →
      sanitize_path ext.unquote_plus fav = some fp → fs.isfile fp = true →
      handle_client ext cfg hooks fs addr data =
        (runBefore hooks.before_request req,
          [http_response 200
            [("Content-Type".toList, "image/x-icon".toList),
             ("Content-Length".toList, natToStr (fs.read fp).length)]
            (fs.read fp)])) ∧
    (favicon_served ext cfg fs req = none →
      handle_client ext cfg hooks fs addr data =
        (runBefore hooks.before_request req,
          respond_resolved ext cfg hooks fs req path)) := by
  constructor
  · intro fav fp hfav hfp hfile
    have hserved : favicon_served ext cfg fs req = some fp := by
      unfold favicon_served
      rw [hroute, if_pos rfl, hfav]
      dsimp only
      rw [hfp]
      dsimp only
      rw [hfile]
      simp
    rw [handle_client_eq hparse hwl, hsan]
    dsimp only
    rw [respond_sanitized_favicon hserved]
  · intro hnone
    rw [handle_client_eq hparse hwl, hsan]
    dsimp only
    rw [respond_sanitized_no_favicon hnone]

def reqFaviconGet : Request :=
  { method := "GET".toList, path := "/favicon.ico".toList,
    version := "HTTP/1.1".toList, headers := [], body := [] }

theorem favicon_route_behavior_witness :
    handle_client extGuess cfgFavicon hooksNone fsFavicon "1.2.3.4".toList
        "GET /favicon.ico HTTP/1.1\r\n\r\n".toList =
      (runBefore hooksNone.before_request reqFaviconGet,
        [http_response 200
          [("Content-Type".toList, "image/x-icon".toList),
           ("Content-Length".toList,
             natToStr (fsFavicon.read "/base/root/logo.png".toList).length)]
          (fsFavicon.read "/base/root/logo.png".toList)]) :=
  (favicon_route_behavior extGuess cfgFavicon hooksNone fsFavicon
      "1.2.3.4".toList "GET /favicon.ico HTTP/1.1\r\n\r\n".toList reqFaviconGet
      "/base/root/favicon.ico".toList
      (by decide) (by decide) (by decide) (by decide)).1
    "/logo.png".toList "/base/root/logo.png".toList rfl (by decide) (by decide)

/-- The anchor element `handle_directory` emits for one child. -/
def anchorFor (rel f : Str) : Str :=
  "<li><a href=\"".toList ++ pyjoin rel f ++ "\">".toList ++ f ++
    "</a></li>".toList

theorem infix_flatMap_of_mem {α β : Type} {f : α} {l : List α} (g : α → List β)
    (h : f ∈ l) : g f <:+: l.flatMap g := by
  induction l with
  | nil => cases h
  | cons a t ih =>
    rw [List.flatMap_cons]
    rcases List.mem_cons.mp h with rfl | h'
    · exact (List.prefix_append _ _).isInfix
    · exact (ih h').trans (List.suffix_append _ _).isInfix

/-- Each directory child's anchor occurs in the generated listing. -/
theorem anchor_within_listing {fs : FS} {path rel : Str} {files : List Str}
    {f : Str} (hls : fs.listdir path = some files) (hf : f ∈ files) :
    anchorFor rel f <:+: handle_directory fs path rel := by
  unfold handle_directory
  rw [hls]
  have h1 : anchorFor rel f <:+:
      files.flatMap (fun file =>
        "<li><a href=\"".toList ++ pyjoin rel file ++ "\">".toList ++ file ++
          "</a></li>".toList) :=
    infix_flatMap_of_mem _ hf
  refine h1.trans ⟨"<html><body><h1>Directory listing</h1><ul>".toList,
    "</ul></body></html>".toList, ?_⟩
  simp

theorem respond_resolved_dir_forbidden {ext : Ext} {cfg : Config}
    {hooks : Hooks} {fs : FS} {req : Request} {path : Str}
    (hdir : fs.isdir path = true)
    (hidx : fs.isfile (pyjoin path "index.html".toList) = false)
    (hbr : cfg.browsable_dirs.contains (dirRelPath path) = false) :
    respond_resolved ext cfg hooks fs req path = [forbiddenResponse] := by
  simp only [respond_resolved, hdir, hidx, hbr]
  simp

theorem respond_resolved_dir_listing {ext : Ext} {cfg : Config}
    {hooks : Hooks} {fs : FS} {req : Request} {path : Str}
    (hdir : fs.isdir path = true)
    (hidx : fs.isfile (pyjoin path "index.html".toList) = false)
    (hbr : cfg.browsable_dirs.contains (dirRelPath path) = true) :
    respond_resolved ext cfg hooks fs req path =
      [http_response 200
        [("Content-Type".toList, "text/html".toList),
         ("Content-Length".toList,
           natToStr (handle_directory fs path (dirRelPath path)).length)]
        (handle_directory fs path (dirRelPath path))] := by
  simp only [respond_resolved, hdir, hidx, hbr]
  simp

def fsFaviconDir : FS :=
  { isfile := fun p => p = "/base/root/logo.png".toList,
    isdir := fun p => p = "/base/root/favicon.ico".toList,
    listdir := fun p =>
      if p = "/base/root/favicon.ico".toList then some ["child.txt".toList]
      else none,
    read := fun _ => "PNG".toList }

def cfgFaviconDir : Config :=
  { ip_whitelist_enabled := false, ip_whitelist := [],
    browsable_dirs := ["/favicon.ico".toList],
    favicon := some "/logo.png".toList }

/-- C5 counterexample: a request that resolves to a browsable directory
without `index.html` is *not* answered with the directory listing when the
favicon shortcut intervenes: here `/favicon.ico` is such a directory and a
member of `browsable_dirs`, yet the response is the configured favicon
file `"PNG"` under `image/x-icon`, with no anchor for the directory's
child. -/
theorem directory_listing_counterexample :
    fsFaviconDir.isdir "/base/root/favicon.ico".toList = true ∧
    fsFaviconDir.isfile
      (pyjoin "/base/root/favicon.ico".toList "index.html".toList) = false ∧
    cfgFaviconDir.browsable_dirs.contains
      (dirRelPath "/base/root/favicon.ico".toList) = true ∧
    sanitize_path extId.unquote_plus "/favicon.ico".toList =
      some "/base/root/favicon.ico".toList ∧
    handle_client extId cfgFaviconDir hooksNone fsFaviconDir "1.2.3.4".toList
        "GET /favicon.ico HTTP/1.1\r\n\r\n".toList =
      ([], [http_response 200
        [("Content-Type".toList, "image/x-icon".toList),
         ("Content-Length".toList, "3".toList)] "PNG".toList]) ∧
    ¬(anchorFor (dirRelPath "/base/root/favicon.ico".toList)
        "child.txt".toList <:+:
      http_response 200
        [("Content-Type".toList, "image/x-icon".toList),
         ("Content-Length".toList, "3".toList)] "PNG".toList) := by
  refine ⟨by decide, by decide, by decide, by decide, by decide, by decide⟩

/-- C5 (amended): for a request that resolves to a directory without an
`index.html`, when the favicon shortcut does not intervene: if the
directory's path relative to the web root, as the code computes it at line
219, is a literal member of `browsable_dirs`, the response is 200 with an
HTML listing containing one anchor per direct child (non-recursive);
otherwise the response is 403. -/
theorem directory_listing_behavior
    (ext : Ext) (cfg : Config) (hooks : Hooks) (fs : FS) (addr data : Str)
    (req : Request) (path : Str)
    (hparse : parse_request data = some req)
    (hwl : (cfg.ip_whitelist_enabled && !(cfg.ip_whitelist.contains addr)) = false)
    (hsan : sanitize_path ext.unquote_plus req.path = some path)
    (hfav : favicon_served ext cfg fs req = none)
    (hdir : fs.isdir path = true)
    (hidx : fs.isfile (pyjoin path "index.html".toList) = false) :
    (cfg.browsable_dirs.contains (dirRelPath path) = true →
      handle_client ext cfg hooks fs addr data =
        (runBefore hooks.before_request req,
          [http_response 200
            [("Content-Type".toList, "text/html".toList),
             ("Content-Length".toList,
               natToStr (handle_directory fs path (dirRelPath path)).length)]
            (handle_directory fs path (dirRelPath path))]) ∧
      ∀ files, fs.listdir path = some files →
        ∀ f ∈ files, anchorFor (dirRelPath path) f <:+:
          handle_directory fs path (dirRelPath path)) ∧
    (cfg.browsable_dirs.contains (dirRelPath path) = false →
      handle_client ext cfg hooks fs addr data =
        (runBefore hooks.before_request req, [forbiddenResponse])) := by
  constructor
  · intro hbr
    constructor
    · rw [handle_client_eq hparse hwl, hsan]
      dsimp only
      rw [respond_sanitized_no_favicon hfav,
        respond_resolved_dir_listing hdir hidx hbr]
    · intro files hls f hf
      exact anchor_within_listing hls hf
  · intro hbr
    rw [handle_client_eq hparse hwl, hsan]
    dsimp only
    rw [respond_sanitized_no_favicon hfav,
      respond_resolved_dir_forbidden hdir hidx hbr]

def fsBrowse : FS :=
  { isfile := fun _ => false,
    isdir := fun p => p = "/base/root/sub".toList,
    listdir := fun p =>
      if p = "/base/root/sub".toList then
        some ["a.txt".toList, "b.txt".toList]
      else none,
    read := fun _ => [] }

def cfgBrowse : Config :=
  { ip_whitelist_enabled := false, ip_whitelist := [],
    browsable_dirs := ["/sub".toList], favicon := none }

def reqSub : Request :=
  { method := "GET".toList, path := "/sub".toList,
    version := "HTTP/1.1".toList, headers := [], body := [] }

theorem directory_listing_behavior_witness :
    (cfgBrowse.browsable_dirs.contains
        (dirRelPath "/base/root/sub".toList) = true →
      handle_client extId cfgBrowse hooksNone fsBrowse "1.2.3.4".toList
          "GET /sub HTTP/1.1\r\n\r\n".toList =
        (runBefore hooksNone.before_request reqSub,
          [http_response 200
            [("Content-Type".toList, "text/html".toList),
             ("Content-Length".toList,
               natToStr (handle_directory fsBrowse "/base/root/sub".toList
                 (dirRelPath "/base/root/sub".toList)).length)]
            (handle_directory fsBrowse "/base/root/sub".toList
              (dirRelPath "/base/root/sub".toList))]) ∧
      ∀ files, fsBrowse.listdir "/base/root/sub".toList = some files →
        ∀ f ∈ files, anchorFor (dirRelPath "/base/root/sub".toList) f <:+:
          handle_directory fsBrowse "/base/root/sub".toList
            (dirRelPath "/base/root/sub".toList)) ∧
    (cfgBrowse.browsable_dirs.contains
        (dirRelPath "/base/root/sub".toList) = false →
      handle_client extId cfgBrowse hooksNone fsBrowse "1.2.3.4".toList
          "GET /sub HTTP/1.1\r\n\r\n".toList =
        (runBefore hooksNone.before_request reqSub, [forbiddenResponse])) :=
  directory_listing_behavior extId cfgBrowse hooksNone fsBrowse
    "1.2.3.4".toList "GET /sub HTTP/1.1\r\n\r\n".toList reqSub
    "/base/root/sub".toList
    (by decide) (by decide) (by decide) (by decide) (by decide) (by decide)

/-- C9: a directory-listing request on a browsable directory whose child
enumeration fails is still answered with status 200 (text/html) and the
fixed body `"Error listing directory"` — the failure never aborts the
request and never becomes an error status. -/
theorem listing_failure_200
    (ext : Ext) (cfg : Config) (hooks : Hooks) (fs : FS) (addr data : Str)
    (req : Request) (path : Str)
    (hparse : parse_request data = some req)
    (hwl : (cfg.ip_whitelist_enabled && !(cfg.ip_whitelist.contains addr)) = false)
    (hsan : sanitize_path ext.unquote_plus req.path = some path)
    (hfav : favicon_served ext cfg fs req = none)
    (hdir : fs.isdir path = true)
    (hidx : fs.isfile (pyjoin path "index.html".toList) = false)
    (hbr : cfg.browsable_dirs.contains (dirRelPath path) = true)
    (hls : fs.listdir path = none) :
    handle_client ext cfg hooks fs addr data =
      (runBefore hooks.before_request req,
        [http_response 200
          [("Content-Type".toList, "text/html".toList),
           ("Content-Length".toList,
             natToStr "Error listing directory".toList.length)]
          "Error listing directory".toList]) := by
  rw [handle_client_eq hparse hwl, hsan]
  dsimp only
  rw [respond_sanitized_no_favicon hfav,
    respond_resolved_dir_listing hdir hidx hbr]
  unfold handle_directory
  rw [hls]

def fsDirFail : FS :=
  { isfile := fun _ => false,
    isdir := fun p => p = "/base/root/sub".toList,
    listdir := fun _ => none, read := fun _ => [] }

theorem listing_failure_200_witness :
    handle_client extId cfgBrowse hooksNone fsDirFail "1.2.3.4".toList
        "GET /sub HTTP/1.1\r\n\r\n".toList =
      (runBefore hooksNone.before_request reqSub,
        [http_response 200
          [("Content-Type".toList, "text/html".toList),
           ("Content-Length".toList,
             natToStr "Error listing directory".toList.length)]
          "Error listing directory".toList]) :=
  listing_failure_200 extId cfgBrowse hooksNone fsDirFail "1.2.3.4".toList
    "GET /sub HTTP/1.1\r\n\r\n".toList reqSub "/base/root/sub".toList
    (by decide) (by decide) (by decide) (by decide) (by decide) (by decide)
    (by decide) (by decide)
